import Mathlib

/-!
Verification of the email SASL client library (sasl.js, sasl-cram.js,
sasl-utils.js) against its natural-language specification.

The JavaScript sources are shallowly embedded: byte buffers become
`List Nat` (each entry a byte value), strings stay `String`, fallible
operations return `Except SaslError` or `Option`, and the ambient
platform facilities (Unicode NFKC normalization, the WebCrypto /
node-crypto provider) become an explicit `Platform` record of pure
functions, mirroring how the code receives them by injection.
-/

/-- The error outcomes the library can produce.  `typeError` models a
JavaScript TypeError raised by dereferencing `undefined` or `null`;
`invalidBase64` models the InvalidCharacterError thrown by `atob` on
malformed base64 input. -/

inductive SaslError
  | invalidArgument
  | malformedServerResponse
  | serverVerificationFailed
  | tooManySteps
  | invalidBase64
  | typeError
deriving DecidableEq

/-! ## Codec: UTF-8 and base64 (sasl-utils.js) -/

/-- UTF-8 encoding of one Unicode scalar value, as byte values. -/

def utf8EncodeChar (c : Char) : List Nat :=
  let n := c.toNat
  if n < 0x80 then [n]
  else if n < 0x800 then [0xc0 + n / 64, 0x80 + n % 64]
  else if n < 0x10000 then [0xe0 + n / 4096, 0x80 + n / 64 % 64, 0x80 + n % 64]
  else [0xf0 + n / 262144, 0x80 + n / 4096 % 64, 0x80 + n / 64 % 64, 0x80 + n % 64]

/-- Models `sasl-utils.js` `stringToArrayBuffer`: the UTF-8 bytes of a string. -/

def stringToArrayBuffer (s : String) : List Nat :=
  (s.data.map utf8EncodeChar).flatten

/-- The base64 alphabet (RFC 4648 standard alphabet). -/

def b64Table : List Char :=
  "ABCDEFGHIJKLMNOPQRSTUVWXYZabcdefghijklmnopqrstuvwxyz0123456789+/".data

def b64CharOf (n : Nat) : Char := b64Table.getD n 'A'

/-- Base64 encoding of a byte list, three bytes at a time, with `=`
padding, as `btoa` produces. -/

def b64EncodeCore : List Nat → List Char
  | [] => []
  | [a] => [b64CharOf (a / 4), b64CharOf (a % 4 * 16), '=', '=']
  | [a, b] => [b64CharOf (a / 4), b64CharOf (a % 4 * 16 + b / 16),
      b64CharOf (b % 16 * 4), '=']
  | a :: b :: c :: rest =>
    b64CharOf (a / 4) :: b64CharOf (a % 4 * 16 + b / 16) ::
      b64CharOf (b % 16 * 4 + c / 64) :: b64CharOf (c % 64) :: b64EncodeCore rest

/-- Models `sasl-utils.js` `arrayBufferToBase64` (String.fromCharCode over the
bytes, then `btoa`).  Inputs are byte arrays, so each entry is `% 256`
exactly as a `Uint8Array` stores it. -/

def arrayBufferToBase64 (buf : List Nat) : String :=
  String.mk (b64EncodeCore (buf.map (fun n => n % 256)))

/-- Models `sasl-utils.js` `stringToBase64UTF8`. -/

def stringToBase64UTF8 (s : String) : String :=
  arrayBufferToBase64 (stringToArrayBuffer s)

/-- Value of one base64 alphabet character, `none` for characters
outside the alphabet (on which `atob` throws). -/

def b64CharVal (c : Char) : Option Nat :=
  let n := c.toNat
  if 65 ≤ n ∧ n ≤ 90 then some (n - 65)
  else if 97 ≤ n ∧ n ≤ 122 then some (n - 97 + 26)
  else if 48 ≤ n ∧ n ≤ 57 then some (n - 48 + 52)
  else if c = '+' then some 62
  else if c = '/' then some 63
  else none

/-- Base64 decoding of a padding-stripped character list, four
characters at a time; a trailing group of two or three characters
carries one or two bytes. -/

def b64DecodeCore : List Char → Option (List Nat)
  | [] => some []
  | [a, b] => do
    let x ← b64CharVal a
    let y ← b64CharVal b
    some [x * 4 + y / 16]
  | [a, b, c] => do
    let x ← b64CharVal a
    let y ← b64CharVal b
    let z ← b64CharVal c
    some [x * 4 + y / 16, y % 16 * 16 + z / 4]
  | a :: b :: c :: d :: rest => do
    let x ← b64CharVal a
    let y ← b64CharVal b
    let z ← b64CharVal c
    let w ← b64CharVal d
    let tailBytes ← b64DecodeCore rest
    some ((x * 4 + y / 16) :: (y % 16 * 16 + z / 4) :: (z % 4 * 64 + w) :: tailBytes)
  | [_] => none

/-- Models `sasl-utils.js` `base64ToArrayBuffer` (via `atob`); `none` models the
thrown InvalidCharacterError.  Trailing `=` padding is stripped first. -/

def base64ToArrayBuffer (s : String) : Option (List Nat) :=
  b64DecodeCore ((s.data.reverse.dropWhile (fun c => c = '=')).reverse)

/-- Models `sasl-utils.js` `base64ToBinaryString` (`atob` itself): each decoded
byte becomes one character of the result. -/

def base64ToBinaryString (s : String) : Option String :=
  (base64ToArrayBuffer s).map (fun l => String.mk (l.map Char.ofNat))

/-! ## SASLprep (sasl-utils.js `saslPrep`)

The code maps the non-ASCII space characters to a space, removes the
"commonly mapped to nothing" characters, and then calls the platform
`String.prototype.normalize("NFKC")`.  NFKC is a JavaScript builtin, not
part of this repository, so it is passed in as an explicit function
argument (the `Platform.nfkc` field below). -/

/-- Character class of the first regex in `saslPrep`, written there as
a range expression over U+00A0, U+1680, U+2000..U+200B, U+202F, U+205F,
U+3000. -/

def isNonAsciiSpace (c : Char) : Bool :=
  let n := c.toNat
  n == 0xa0 || n == 0x1680 || (0x2000 ≤ n && n ≤ 0x200b) ||
    n == 0x202f || n == 0x205f || n == 0x3000

/-- Character class of the second regex in `saslPrep`, written there as
a range expression over U+00AD, U+034F, U+1806, U+180B..U+180D, U+200C,
U+200D, U+2060, U+FE00..U+FE0F, U+FEFF. -/

def isMappedToNothing (c : Char) : Bool :=
  let n := c.toNat
  n == 0xad || n == 0x34f || n == 0x1806 || (0x180b ≤ n && n ≤ 0x180d) ||
    n == 0x200c || n == 0x200d || n == 0x2060 ||
    (0xfe00 ≤ n && n ≤ 0xfe0f) || n == 0xfeff

/-- Models `str.replace(/[...space class...]/g, " ")`. -/

def mapNonAsciiSpaces (s : String) : String :=
  String.mk (s.data.map (fun c => if isNonAsciiSpace c then ' ' else c))

/-- Models `str.replace(/[...mapped-to-nothing class...]/g, "")`. -/

def removeMappedToNothing (s : String) : String :=
  String.mk (s.data.filter (fun c => !isMappedToNothing c))

/-- Models `sasl-utils.js` `saslPrep`, with the platform NFKC normalization
passed explicitly.  Total: no input is rejected. -/

def saslPrep (nfkc : String → String) (s : String) : String :=
  nfkc (removeMappedToNothing (mapNonAsciiSpaces s))

/-! ## Specification-side SASLprep pipeline (claims C7 and C8) -/

/-- Modelled from the spec: the code point set of the claim text
"replace each code point in the non-ASCII space set
U+00A0, U+1680, U+2000..U+200B, U+202F, U+205F, U+3000 with U+0020",
written as the explicit code point list. -/

def specNonAsciiSpaceCodes : List Nat :=
  [0xa0, 0x1680] ++ List.range' 0x2000 12 ++ [0x202f, 0x205f, 0x3000]

/-- Modelled from the spec: the code point set of the claim text
"remove each code point in U+00AD, U+034F, U+1806, U+180B..U+180D,
U+200C, U+200D, U+2060, U+FE00..U+FE0F, U+FEFF". -/

def specMappedToNothingCodes : List Nat :=
  [0xad, 0x34f, 0x1806] ++ List.range' 0x180b 3 ++ [0x200c, 0x200d, 0x2060] ++
    List.range' 0xfe00 16 ++ [0xfeff]

/-- Modelled from the spec: the three-stage pipeline of claim C7 --
map the space set to U+0020, then remove the mapped-to-nothing set,
then apply the (platform) NFKC normalization. -/

def specSaslPrep (nfkc : String → String) (s : String) : String :=
  nfkc (String.mk
    ((s.data.map
        (fun c => if specNonAsciiSpaceCodes.contains c.toNat then ' ' else c)).filter
      (fun c => !(specMappedToNothingCodes.contains c.toNat))))

/-! ## Idempotence of SASLprep (claim C8) -/

/-- A string touched by neither of the two mapping stages of
`saslPrep`. -/

def prepStable (s : String) : Bool :=
  s.data.all (fun c => !isNonAsciiSpace c && !isMappedToNothing c)

/-! ## The injected platform: NFKC and the crypto provider

The code consumes the WebCrypto / node-crypto provider and the
JavaScript `String.prototype.normalize` builtin; neither is code of this
repository.  Both are modelled as opaque total functions carried in a
record.  Byte strings are `List Nat`; `pbkdf2` receives the iteration
count as `Option Int`, where `none` models the NaN that JavaScript
`parseInt` produces on non-numeric input and which the code passes on
unchecked. -/

structure Platform where
  nfkc : String → String
  randomBytes : Nat → List Nat
  digest : String → List Nat → List Nat
  hmac : String → List Nat → List Nat → List Nat
  pbkdf2 : String → List Nat → List Nat → Option Int → Nat → List Nat

/-- A concrete platform used to evaluate the model on explicit inputs:
identity NFKC and schematic crypto functions. -/

def testEnv : Platform where
  nfkc := fun t => t
  randomBytes := fun n => List.replicate n 65
  digest := fun _ d => d.take 4
  hmac := fun _ k d => (k ++ d).take 6
  pbkdf2 := fun _ p _ _ _ => p.take 8

/-! ## Small JavaScript string helpers used by the SCRAM parser -/

/-- Models JavaScript `String.prototype.substring(0, 2)`. -/

def jsFirst2 (s : String) : String := String.mk (s.data.take 2)

/-- Models JavaScript `String.prototype.substring(2)`. -/

def jsDropFirst2 (s : String) : String := String.mk (s.data.drop 2)

def splitCommaCore : List Char → List (List Char)
  | [] => [[]]
  | c :: rest =>
    let r := splitCommaCore rest
    if c = ',' then [] :: r
    else
      match r with
      | h :: t => (c :: h) :: t
      | [] => [[c]]

/-- Models JavaScript `String.prototype.split` on a comma: always at least one
element; empty fields are kept. -/

def jsSplitComma (s : String) : List String :=
  (splitCommaCore s.data).map String.mk

/-- Models JavaScript `parseInt` restricted to what the SCRAM parser feeds it:
an optional sign followed by leading decimal digits; `none` models NaN
(no digits at all).  (parseInt's whitespace skipping and radix prefixes
do not arise in these call sites.) -/

def jsParseInt (s : String) : Option Int :=
  let core : List Char → Option Int := fun l =>
    let digits := l.takeWhile Char.isDigit
    if digits.isEmpty then none
    else some (Int.ofNat (digits.foldl (fun acc c => acc * 10 + (c.toNat - 48)) 0))
  match s.data with
  | '-' :: rest => (core rest).map (fun n => -n)
  | '+' :: rest => core rest
  | l => core l

/-- Models JavaScript `String.prototype.replace` with a single-character string
pattern: replaces only the first occurrence. -/

def replaceFirstCore (pat : Char) (repl : List Char) : List Char → List Char
  | [] => []
  | c :: rest => if c = pat then repl ++ rest else c :: replaceFirstCore pat repl rest

def replaceFirstChar (pat : Char) (repl : String) (s : String) : String :=
  String.mk (replaceFirstCore pat repl.data s.data)

/-- Boolean string-prefix test (used only in statements about the
client nonce, never by the code model itself). -/

def strStartsWith (pre s : String) : Bool := s.data.take pre.data.length == pre.data

/-! ## SCRAM and CRAM-MD5 step machines (sasl-cram.js) -/

/-- The user escaping of SCRAM step 0:
`saslPrep(user).replace(',', "=2C").replace('=', "=3D")`.
JavaScript `replace` with a string pattern rewrites only the first
occurrence, and the second `replace` sees the text produced by the
first one. -/

def scramEscapeUser (nfkc : String → String) (user : String) : String :=
  replaceFirstChar '=' "=3D" (replaceFirstChar ',' "=2C" (saslPrep nfkc user))

/-- The byte-wise XOR loop producing ClientProof:
`clientProof[i] = clientKey[i] ^ clientSignature[i]` over the length of
the signature, stored into a Uint8Array (hence `% 256`); an index past
the end of `clientKey` reads as 0, as JavaScript coerces `undefined`. -/

def xorClamp (clientKey clientSignature : List Nat) : List Nat :=
  (List.range clientSignature.length).map
    (fun i => Nat.xor (clientKey.getD i 0) (clientSignature.getD i 0) % 256)

/-- The lowercase hex rendering used by CRAM-MD5 (`hexBytes` table). -/

def hexDigit (n : Nat) : Char := "0123456789abcdef".data.getD n '0'

def lowerHex (l : List Nat) : String :=
  String.mk ((l.map (fun n => [hexDigit (n / 16 % 16), hexDigit (n % 16)])).flatten)

/-- The straight-line tail of SCRAM step 1 once the three attributes
have been parsed: client-final-without-proof, AuthMessage, the PBKDF2 /
HMAC key schedule, ClientProof, and the cached ServerSignature.
Returns the emitted client-final message and that signature. -/

def scramComputeFinal (env : Platform) (hashName : String) (hashLength : Nat)
    (pass clientFirst serverFirst servernonce : String) (salt : List Nat)
    (iterCount : Option Int) : String × List Nat :=
  let gs2Header := "n,,"
  let clientFinal := "c=" ++ stringToBase64UTF8 gs2Header ++ ",r=" ++ servernonce
  let authMessage := clientFirst ++ "," ++ serverFirst ++ "," ++ clientFinal
  let saltedPassword :=
    env.pbkdf2 hashName (stringToArrayBuffer (saslPrep env.nfkc pass)) salt
      iterCount hashLength
  let clientKey := env.hmac hashName saltedPassword (stringToArrayBuffer "Client Key")
  let storedKey := env.digest hashName clientKey
  let clientSignature := env.hmac hashName storedKey (stringToArrayBuffer authMessage)
  let clientProof := xorClamp clientKey clientSignature
  let serverKey := env.hmac hashName saltedPassword (stringToArrayBuffer "Server Key")
  let serverSignature := env.hmac hashName serverKey (stringToArrayBuffer authMessage)
  (stringToBase64UTF8 (clientFinal ++ ",p=" ++ arrayBufferToBase64 clientProof),
    serverSignature)

/-- SCRAM step 1 (`executeSteps` from the first `yield` to the second):
decode the base64 server challenge, split on commas, discard an
optional leading `m=` attribute, demand the `r=` / `s=` / `i=`
prefixes in order (anything else is "Malformed server response"), and
run the computation tail.  The captured server nonce is the entire
`r=` value; the code performs no comparison against the client nonce.
A missing attribute makes the code call `.substring` on `undefined`
(`typeError`); an unparsable base64 salt makes `atob` throw
(`invalidBase64`); a missing password makes `saslPrep(undefined)` throw
(`typeError`). -/

def scramStep1 (env : Platform) (hashName : String) (hashLength : Nat)
    (pass : Option String) (clientFirst : String) (r1 : String) :
    Except SaslError (String × List Nat) :=
  match base64ToBinaryString r1 with
  | none => .error .invalidBase64
  | some serverFirst =>
    let resp0 := jsSplitComma serverFirst
    let resp := if jsFirst2 (resp0.headD "") = "m=" then resp0.tail else resp0
    match resp.get? 0 with
    | none => .error .typeError
    | some a0 =>
      if jsFirst2 a0 ≠ "r=" then .error .malformedServerResponse
      else
        let servernonce := jsDropFirst2 a0
        match resp.get? 1 with
        | none => .error .typeError
        | some a1 =>
          if jsFirst2 a1 ≠ "s=" then .error .malformedServerResponse
          else
            match base64ToArrayBuffer (jsDropFirst2 a1) with
            | none => .error .invalidBase64
            | some salt =>
              match resp.get? 2 with
              | none => .error .typeError
              | some a2 =>
                if jsFirst2 a2 ≠ "i=" then .error .malformedServerResponse
                else
                  let iterCount := jsParseInt (jsDropFirst2 a2)
                  match pass with
                  | none => .error .typeError
                  | some p =>
                    .ok (scramComputeFinal env hashName hashLength p clientFirst
                      serverFirst servernonce salt iterCount)

/-- SCRAM step 2 (`executeSteps` after the second `yield`): compare the
received base64 server-final message, verbatim, against
`b64(utf8("v=" + b64(ServerSignature)))`; a mismatch is "Server's
final response is unexpected", a match yields the empty string. -/

def scramStep2 (serverSignature : List Nat) (serverFinal : String) :
    Except SaslError String :=
  let expected := "v=" ++ arrayBufferToBase64 serverSignature
  if stringToBase64UTF8 expected ≠ serverFinal then .error .serverVerificationFailed
  else .ok ""

/-- SCRAM step 0 (`executeSteps` up to the first `yield`): escape the
prepared user name, build client-first-bare, emit the base64 client
first message.  Returns the emitted message and client-first-bare. -/

def scramStep0 (nfkc : String → String) (user nonce : String) : String × String :=
  let escUser := scramEscapeUser nfkc user
  let clientFirst := "n=" ++ escUser ++ ",r=" ++ nonce
  (stringToBase64UTF8 ("n,," ++ clientFirst), clientFirst)

/-! ## The Authenticator (sasl.js)

Mechanism instances and generator frames are plain data so that
authenticator states have decidable equality; the platform record is
passed to every operation instead of being stored. -/

/-- The `options.desiredAuthMethods` value: either a string (the
`"encrypted"` sentinel or anything else) or an array of names. -/

inductive DesiredAuth
  | str (s : String)
  | list (l : List String)
deriving DecidableEq

/-- The options dictionary (credentials); absent fields are `none`,
modelling `undefined`. -/

structure Credentials where
  user : Option String := none
  pass : Option String := none
  oauthbearer : Option String := none
  desiredAuthMethods : Option DesiredAuth := none
deriving DecidableEq

/-- The kind of a registered mechanism class; SCRAM carries its hash
name and hash output length in bytes. -/

inductive MechKind
  | plain
  | login
  | anonymous
  | xoauth2
  | cramMD5
  | scram (hashName : String) (hashLength : Nat)
deriving DecidableEq

/-- A registry entry: the mechanism class with its static
`isClientFirst` flag. -/

structure MechDef where
  kind : MechKind
  isClientFirst : Bool
deriving DecidableEq

/-- A constructed mechanism instance: the fields the constructors copy
out of the options, plus the SCRAM nonce drawn at construction. -/

structure MechInst where
  kind : MechKind
  user : Option String
  pass : Option String
  bearer : Option String
  nonce : String
deriving DecidableEq

/-- The suspension point of a running `executeSteps` generator.
`sCram` stores the `initChallenge` argument; `sScram1` stores
client-first-bare; `sScram2` stores the cached ServerSignature. -/

inductive GenSt
  | sPlain
  | sLogin0
  | sLogin1
  | sAnon
  | sXo0
  | sXo1
  | sCram (initChallenge : String)
  | sScram0
  | sScram1 (clientFirst : String)
  | sScram2 (serverSignature : List Nat)
  | sDone
deriving DecidableEq

deriving instance DecidableEq for Except

/-- The result of one generator `next()` call: a yielded value (a
string or a promise, so possibly a rejection), normal completion, or a
synchronously thrown error. -/

inductive GenResult
  | yielded (value : Except SaslError String)
  | done
  | threw (e : SaslError)
deriving DecidableEq

/-- What one `authStep` call does, seen by the caller: a synchronous
exception, a resolved promise, or a rejected promise. -/

inductive AuthOutcome
  | thrown (e : SaslError)
  | resolved (value : String)
  | rejected (e : SaslError)
deriving DecidableEq

/-- The mutable state of an `Authenticator`: `authMethods` is the
candidate array in the same order as the JavaScript array (the code
pops from its end); `authSteps` is the running generator, `none` for
the JavaScript `undefined`/`null`; `currentAuthMethod` is `""` when
unset. -/

structure AuthState where
  service : String
  hostname : String
  options : Credentials
  authMethods : List String
  authModule : Option MechInst
  authSteps : Option (MechInst × GenSt)
  currentAuthMethod : String
deriving DecidableEq

/-- JavaScript truthiness of an optional string (`undefined` and `""`
are falsy). -/

def truthy : Option String → Bool
  | none => false
  | some s => !(s == "")

/-- Models `isValid()` of each mechanism class, as a function of the options
the constructor copied. -/

def kindIsValid (k : MechKind) (opts : Credentials) : Bool :=
  match k with
  | .anonymous => true
  | .xoauth2 => truthy opts.user && truthy opts.oauthbearer
  | _ => truthy opts.user && truthy opts.pass

/-- Models `new (authClass)(service, hostname, options)`: the constructors of
sasl.js and sasl-cram.js.  ANONYMOUS stores `options.user || ""`; SCRAM
draws `hashLength` random bytes and base64-encodes them as the nonce. -/

def instantiate (env : Platform) (k : MechKind) (opts : Credentials) : MechInst :=
  match k with
  | .anonymous =>
    { kind := k, user := some (opts.user.getD ""), pass := none, bearer := none,
      nonce := "" }
  | .xoauth2 =>
    { kind := k, user := opts.user, pass := none, bearer := opts.oauthbearer, nonce := "" }
  | .scram _ len =>
    { kind := k, user := opts.user, pass := opts.pass, bearer := none,
      nonce := arrayBufferToBase64 (env.randomBytes len) }
  | _ =>
    { kind := k, user := opts.user, pass := opts.pass, bearer := none, nonce := "" }

/-- Models `String.prototype.toUpperCase` as used on mechanism names (the
simple character-wise uppercase; mechanism names are ASCII). -/

def jsToUpperCase (s : String) : String :=
  String.mk (s.data.map Char.toUpper)

/-- Models `saslModules[name]`: the registry lookup (a JavaScript object keyed
by canonical mechanism name). -/

def lookupModule (reg : List (String × MechDef)) (nm : String) : Option MechDef :=
  (reg.find? (fun p => p.1 == nm)).map Prod.snd

/-- The export list of sasl-cram.js, in its source order (increasing
security). -/

def saslCramModules : List (String × MechDef) :=
  [("CRAM-MD5", { kind := .cramMD5, isClientFirst := false }),
   ("SCRAM-SHA-1", { kind := .scram "SHA-1" 20, isClientFirst := true }),
   ("SCRAM-SHA-256", { kind := .scram "SHA-256" 32, isClientFirst := true })]

/-- The built-in registry of sasl.js: PLAIN, LOGIN, ANONYMOUS and
XOAUTH2 registered first, then the sasl-cram.js exports. -/

def saslModules : List (String × MechDef) :=
  [("PLAIN", { kind := .plain, isClientFirst := true }),
   ("LOGIN", { kind := .login, isClientFirst := false }),
   ("ANONYMOUS", { kind := .anonymous, isClientFirst := true }),
   ("XOAUTH2", { kind := .xoauth2, isClientFirst := true })] ++ saslCramModules

/-- Models `encryptedMethods`: the sasl-cram.js keys, reversed (the list comes
in increasing order of security). -/

def encryptedMethods : List String := (saslCramModules.map Prod.fst).reverse

/-- The default `desiredAuthMethods` priority list. -/

def desiredAuthMethods : List String :=
  ["XOAUTH2"] ++ encryptedMethods ++ ["PLAIN", "LOGIN"]

/-- The constructor's choice of priority list:
`this.options.desiredAuthMethods || desiredAuthMethods`, the
`"encrypted"` sentinel, an explicit array, or anything else (throw). -/

def effectiveAuthMethods (opts : Credentials) : Except SaslError (List String) :=
  match opts.desiredAuthMethods with
  | none => .ok desiredAuthMethods
  | some (.str s) =>
    if s = "" then .ok desiredAuthMethods
    else if s = "encrypted" then .ok encryptedMethods
    else .error .invalidArgument
  | some (.list l) => .ok l

/-- The `Authenticator` constructor: validate the arguments, uppercase
the server list, filter the priority list down to it, and reverse the
result so that `pop()` yields the highest priority first. -/

def mkAuthenticator (serviceName hostname : String) (supported : List String)
    (opts : Credentials) : Except SaslError AuthState :=
  if serviceName = "" then .error .invalidArgument
  else if hostname = "" then .error .invalidArgument
  else if supported = [] then .error .invalidArgument
  else
    match effectiveAuthMethods opts with
    | .error e => .error e
    | .ok methods =>
      let supportedU := supported.map jsToUpperCase
      .ok { service := serviceName, hostname := hostname, options := opts,
            authMethods := (methods.filter (fun m => supportedU.contains m)).reverse,
            authModule := none, authSteps := none, currentAuthMethod := "" }

/-- JavaScript string concatenation of a possibly-undefined value
(`"..." + undefined` renders as `"undefined"`), used for the XOAUTH2
bearer token. -/

def jsConcatStr : Option String → String
  | some s => s
  | none => "undefined"

/-- One `next(arg)` call on a suspended `executeSteps` generator.
Mirrors each mechanism's generator body between consecutive `yield`s:

* PLAIN, LOGIN, XOAUTH2, ANONYMOUS: sasl.js `executeSteps`; a missing
  `user`/`pass` makes `saslPrep(undefined)` throw synchronously.
* CRAM-MD5 (sasl-cram.js): HMAC-MD5 over the decoded initial
  challenge, rendered in lowercase hex; the challenge is decoded inside
  the promise chain, so a bad base64 challenge rejects the promise,
  while `saslPrep(this.pass)` is evaluated synchronously.
* SCRAM (sasl-cram.js): step 0 / step 1 / step 2 as `scramStep0`,
  `scramStep1`, `scramStep2`; step 1 parse errors are thrown
  synchronously, step 2 verification failure rejects the yielded
  promise. -/

def genNext (env : Platform) (inst : MechInst) (gs : GenSt) (arg : String) :
    GenResult × GenSt :=
  match gs with
  | .sPlain =>
    match inst.user, inst.pass with
    | some u, some p =>
      (.yielded (.ok (stringToBase64UTF8
        ("\x00" ++ saslPrep env.nfkc u ++ "\x00" ++ saslPrep env.nfkc p))), .sDone)
    | _, _ => (.threw .typeError, .sDone)
  | .sLogin0 =>
    match inst.user with
    | some u => (.yielded (.ok (stringToBase64UTF8 (saslPrep env.nfkc u))), .sLogin1)
    | none => (.threw .typeError, .sDone)
  | .sLogin1 =>
    match inst.pass with
    | some p => (.yielded (.ok (stringToBase64UTF8 (saslPrep env.nfkc p))), .sDone)
    | none => (.threw .typeError, .sDone)
  | .sAnon => (.yielded (.ok (stringToBase64UTF8 (inst.user.getD ""))), .sDone)
  | .sXo0 =>
    match inst.user with
    | some u =>
      (.yielded (.ok (stringToBase64UTF8 ("user=" ++ saslPrep env.nfkc u ++
        "\x01auth=Bearer " ++ jsConcatStr inst.bearer ++ "\x01\x01"))), .sXo1)
    | none => (.threw .typeError, .sDone)
  | .sXo1 => (.yielded (.ok ""), .sDone)
  | .sCram initChallenge =>
    match inst.pass with
    | none => (.threw .typeError, .sDone)
    | some p =>
      match base64ToArrayBuffer initChallenge with
      | none => (.yielded (.error .invalidBase64), .sDone)
      | some data =>
        match inst.user with
        | none => (.yielded (.error .typeError), .sDone)
        | some u =>
          (.yielded (.ok (stringToBase64UTF8 (saslPrep env.nfkc u ++ " " ++
            lowerHex (env.hmac "MD5"
              (stringToArrayBuffer (saslPrep env.nfkc p)) data)))), .sDone)
  | .sScram0 =>
    match inst.user with
    | none => (.threw .typeError, .sDone)
    | some u =>
      let r := scramStep0 env.nfkc u inst.nonce
      (.yielded (.ok r.1), .sScram1 r.2)
  | .sScram1 clientFirst =>
    let al := match inst.kind with
      | .scram h len => (h, len)
      | _ => ("", 0)
    match scramStep1 env al.1 al.2 inst.pass clientFirst arg with
    | .error e => (.threw e, .sDone)
    | .ok (msg, sig) => (.yielded (.ok msg), .sScram2 sig)
  | .sScram2 sig =>
    match scramStep2 sig arg with
    | .ok s => (.yielded (.ok s), .sDone)
    | .error e => (.yielded (.error e), .sDone)
  | .sDone => (.done, .sDone)

/-- Models `this._authModule.executeSteps(serverStep)`: the fresh generator,
suspended at its start.  CRAM-MD5 is the only mechanism reading the
`initChallenge` argument. -/

def initGen (inst : MechInst) (initChallenge : String) : GenSt :=
  match inst.kind with
  | .plain => .sPlain
  | .login => .sLogin0
  | .anonymous => .sAnon
  | .xoauth2 => .sXo0
  | .cramMD5 => .sCram initChallenge
  | .scram _ _ => .sScram0

/-- How `authStep` surfaces one generator result: a yielded string (or
promise) through `Promise.resolve`, generator completion as
`Promise.reject(new Error("Too many steps"))`, and a generator throw as
a synchronous exception. -/

def outcomeOf : GenResult → AuthOutcome
  | .yielded (.ok v) => .resolved v
  | .yielded (.error e) => .rejected e
  | .done => .rejected .tooManySteps
  | .threw e => .thrown e

/-- Models `Authenticator.prototype.authStep(serverStep)`.  On the first call
for the current mechanism (`this._currentAuthMethod && !this._authSteps`)
it starts the generator and calls `next()` with no argument; otherwise
it calls `this._authSteps.next(serverStep)` -- unconditionally, so with
no current generator the `null`/`undefined` dereference throws a
TypeError synchronously. -/

def authStep (env : Platform) (st : AuthState) (serverStep : String) :
    AuthOutcome × AuthState :=
  match st.authSteps, decide (st.currentAuthMethod ≠ "") with
  | none, true =>
    match st.authModule with
    | none => (.thrown .typeError, st)
    | some inst =>
      let r := genNext env inst (initGen inst serverStep) ""
      (outcomeOf r.1, { st with authSteps := some (inst, r.2) })
  | some (inst, gs), _ =>
    let r := genNext env inst gs serverStep
    (outcomeOf r.1, { st with authSteps := some (inst, r.2) })
  | none, false => (.thrown .typeError, st)

/-- The candidate loop of `tryNextAuth`, run on the REVERSED candidate
array so that consuming the list head models `pop()` from the array
end.  Returns the loop outcome together with the unconsumed part (still
in reversed order).  A name with no registry entry makes
`new (undefined)(...)` throw a TypeError. -/

def tryNextLoopRev (env : Platform) (reg : List (String × MechDef))
    (opts : Credentials) :
    List String → Except SaslError (Option (String × Bool × MechInst)) × List String
  | [] => (.ok none, [])
  | nm :: rest =>
    match lookupModule reg nm with
    | none => (.error .typeError, rest)
    | some md =>
      let inst := instantiate env md.kind opts
      if kindIsValid md.kind opts then (.ok (some (nm, md.isClientFirst, inst)), rest)
      else tryNextLoopRev env reg opts rest

/-- Models `Authenticator.prototype.tryNextAuth()`: pop candidates until one
is valid; when the stack drains, clear the module, the step iterator
and the current method name and return null.  On success the step
iterator is NOT cleared (exactly as in the source). -/

def clearedOf (st : AuthState) : AuthState :=
  { st with
    authMethods := []
    authModule := none
    authSteps := none
    currentAuthMethod := "" }

def tryNextAuth (env : Platform) (reg : List (String × MechDef)) (st : AuthState) :
    Except SaslError (Option (String × Bool) × AuthState) :=
  match tryNextLoopRev env reg st.options st.authMethods.reverse with
  | (.error e, _) => .error e
  | (.ok none, _) => .ok (none, clearedOf st)
  | (.ok (some (nm, cf, inst)), restRev) =>
    .ok (some (nm, cf),
      { st with
        authMethods := restRev.reverse
        authModule := some inst
        currentAuthMethod := nm })

/-- The names produced by calling `tryNextAuth` repeatedly until it
stops returning a mechanism (fuel-bounded recursion; any fuel at least
the candidate count is enough). -/

def drainNames (env : Platform) (reg : List (String × MechDef)) :
    Nat → AuthState → List String
  | 0, _ => []
  | Nat.succ fuel, st =>
    match tryNextAuth env reg st with
    | .ok (some (nm, _), st2) => nm :: drainNames env reg fuel st2
    | _ => []

/-- Feed a list of server challenges through `authStep` one at a time,
collecting each call's outcome and the final state. -/

def runSteps (env : Platform) : AuthState → List String → List AuthOutcome × AuthState
  | st, [] => ([], st)
  | st, c :: cs =>
    let p := authStep env st c
    let q := runSteps env p.2 cs
    (p.1 :: q.1, q.2)

def specMaxSteps (name : String) : Option Nat :=
  if name = "PLAIN" then some 1
  else if name = "LOGIN" then some 2
  else if name = "ANONYMOUS" then some 1
  else if name = "XOAUTH2" then some 2
  else if name = "CRAM-MD5" then some 1
  else if name = "SCRAM-SHA-1" then some 3
  else if name = "SCRAM-SHA-256" then some 3
  else none

def remYields : GenSt → Nat
  | .sPlain => 1
  | .sLogin0 => 2
  | .sLogin1 => 1
  | .sAnon => 1
  | .sXo0 => 2
  | .sXo1 => 1
  | .sCram _ => 1
  | .sScram0 => 3
  | .sScram1 _ => 2
  | .sScram2 _ => 1
  | .sDone => 0

def isResolvedOutcome : AuthOutcome → Bool
  | .resolved _ => true
  | _ => false

def mechNameIsValid (reg : List (String × MechDef)) (opts : Credentials)
    (nm : String) : Bool :=
  match lookupModule reg nm with
  | some md => kindIsValid md.kind opts
  | none => false

def c9opts : Credentials :=
  { user := some "a"
    pass := some "b"
    desiredAuthMethods := some (.list ["FOO"]) }

def c9state : AuthState :=
  { service := "imap"
    hostname := "localhost.localdomain"
    options := c9opts
    authMethods := ["FOO"]
    authModule := none
    authSteps := none
    currentAuthMethod := "" }

def wOpts : Credentials :=
  { user := some "a"
    pass := some "b" }

def wSt : AuthState :=
  { service := "imap"
    hostname := "localhost.localdomain"
    options := wOpts
    authMethods := ["LOGIN", "PLAIN"]
    authModule := none
    authSteps := none
    currentAuthMethod := "" }

def c3opts : Credentials :=
  { user := some "tim"
    pass := some "tanstaaftanstaaf" }

def c3st0 : AuthState :=
  { service := "imap"
    hostname := "localhost.localdomain"
    options := c3opts
    authMethods := ["PLAIN"]
    authModule := none
    authSteps := none
    currentAuthMethod := "" }

def c3st : AuthState :=
  { service := "imap"
    hostname := "localhost.localdomain"
    options := c3opts
    authMethods := []
    authModule := some (instantiate testEnv MechKind.plain c3opts)
    authSteps := none
    currentAuthMethod := "PLAIN" }

/-! ## Theorems -/

theorem data_mk (l : List Char) : (String.mk l).data = l := rfl

theorem mk_data (s : String) : String.mk s.data = s := rfl

theorem isNonAsciiSpace_eq_spec (c : Char) :
    isNonAsciiSpace c = specNonAsciiSpaceCodes.contains c.toNat := by
  have h : specNonAsciiSpaceCodes =
      [0xa0, 0x1680, 0x2000, 0x2001, 0x2002, 0x2003, 0x2004, 0x2005, 0x2006,
       0x2007, 0x2008, 0x2009, 0x200a, 0x200b, 0x202f, 0x205f, 0x3000] := rfl
  rw [h, Bool.eq_iff_iff]
  unfold isNonAsciiSpace
  generalize c.toNat = n
  simp
  omega

theorem isMappedToNothing_eq_spec (c : Char) :
    isMappedToNothing c = specMappedToNothingCodes.contains c.toNat := by
  have h : specMappedToNothingCodes =
      [0xad, 0x34f, 0x1806, 0x180b, 0x180c, 0x180d, 0x200c, 0x200d, 0x2060,
       0xfe00, 0xfe01, 0xfe02, 0xfe03, 0xfe04, 0xfe05, 0xfe06, 0xfe07, 0xfe08,
       0xfe09, 0xfe0a, 0xfe0b, 0xfe0c, 0xfe0d, 0xfe0e, 0xfe0f, 0xfeff] := rfl
  rw [h, Bool.eq_iff_iff]
  unfold isMappedToNothing
  generalize c.toNat = n
  simp
  omega

/-- C7: for every string, `saslPrep` equals the three-stage pipeline of
the claim -- map the non-ASCII space set to U+0020, remove the
mapped-to-nothing set, then apply NFKC -- with the two code point sets
exactly as the claim lists them.  `saslPrep` is a total function, so no
input string is ever rejected. -/

theorem saslPrep_eq_specSaslPrep (nfkc : String → String) (s : String) :
    saslPrep nfkc s = specSaslPrep nfkc s := by
  unfold saslPrep specSaslPrep mapNonAsciiSpaces removeMappedToNothing
  rw [data_mk]
  have hmap : s.data.map (fun c => if isNonAsciiSpace c then ' ' else c) =
      s.data.map (fun c => if specNonAsciiSpaceCodes.contains c.toNat then ' ' else c) := by
    apply List.map_congr_left
    intro a _
    rw [isNonAsciiSpace_eq_spec]
  rw [hmap]
  have hfilter : ∀ l : List Char,
      l.filter (fun c => !isMappedToNothing c) =
        l.filter (fun c => !(specMappedToNothingCodes.contains c.toNat)) := by
    intro l
    apply List.filter_congr
    intro a _
    rw [isMappedToNothing_eq_spec]
  rw [hfilter]

theorem prepStable_after_mapping (s : String) :
    prepStable (removeMappedToNothing (mapNonAsciiSpaces s)) = true := by
  unfold prepStable removeMappedToNothing mapNonAsciiSpaces
  rw [data_mk, List.all_eq_true]
  intro c hc
  rw [data_mk, List.mem_filter] at hc
  obtain ⟨hmem, hkeep⟩ := hc
  rw [List.mem_map] at hmem
  obtain ⟨a, _, rfl⟩ := hmem
  rw [Bool.and_eq_true]
  refine ⟨?_, by simpa using hkeep⟩
  by_cases h : isNonAsciiSpace a
  · rw [if_pos h]
    decide
  · rw [if_neg h]
    simpa using h

theorem mapNonAsciiSpaces_of_stable (s : String) (h : prepStable s = true) :
    mapNonAsciiSpaces s = s := by
  unfold mapNonAsciiSpaces
  unfold prepStable at h
  rw [List.all_eq_true] at h
  have : s.data.map (fun c => if isNonAsciiSpace c then ' ' else c) = s.data := by
    have := List.map_congr_left (f := fun c => if isNonAsciiSpace c then ' ' else c)
      (g := fun c => c) (l := s.data) ?_
    · simpa using this
    · intro a ha
      have h2 := h a ha
      rw [Bool.and_eq_true] at h2
      simp only [Bool.not_eq_true'] at h2
      simp [h2.1]
  rw [this, mk_data]

theorem removeMappedToNothing_of_stable (s : String) (h : prepStable s = true) :
    removeMappedToNothing s = s := by
  unfold removeMappedToNothing
  unfold prepStable at h
  rw [List.all_eq_true] at h
  have : s.data.filter (fun c => !isMappedToNothing c) = s.data := by
    rw [List.filter_eq_self]
    intro a ha
    have := h a ha
    rw [Bool.and_eq_true] at this
    exact this.2
  rw [this, mk_data]

/-- C8: `saslPrep` is idempotent.  NFKC is a platform builtin, not code
of this repository; it is modelled as an arbitrary function assumed to
be idempotent and to introduce no character of the two mapped sets into
a string free of them -- both properties of Unicode NFKC. -/

theorem saslPrep_idempotent (nfkc : String → String)
    (hidem : ∀ t, nfkc (nfkc t) = nfkc t)
    (hstable : ∀ t, prepStable t = true → prepStable (nfkc t) = true)
    (s : String) :
    saslPrep nfkc (saslPrep nfkc s) = saslPrep nfkc s := by
  have hy : prepStable (saslPrep nfkc s) = true := by
    unfold saslPrep
    exact hstable _ (prepStable_after_mapping s)
  show nfkc (removeMappedToNothing (mapNonAsciiSpaces (saslPrep nfkc s))) = _
  rw [mapNonAsciiSpaces_of_stable _ hy, removeMappedToNothing_of_stable _ hy]
  show nfkc (nfkc (removeMappedToNothing (mapNonAsciiSpaces s))) = _
  rw [hidem]
  rfl

/-- Witness for C8 at the identity normalization and a concrete string
containing a soft hyphen. -/

theorem saslPrep_idempotent_witness :
    saslPrep (fun t => t) (saslPrep (fun t => t) "I­X") =
      saslPrep (fun t => t) "I­X" :=
  saslPrep_idempotent (fun t => t) (fun _ => rfl) (fun _ h => h) "I­X"

theorem jsFirst2_of_len2 (p s : String) (h : p.data.length = 2) :
    jsFirst2 (p ++ s) = p := by
  unfold jsFirst2
  have hd : (p ++ s).data = p.data ++ s.data := rfl
  rw [hd, ← h, List.take_left, mk_data]

theorem jsDropFirst2_of_len2 (p s : String) (h : p.data.length = 2) :
    jsDropFirst2 (p ++ s) = s := by
  unfold jsDropFirst2
  have hd : (p ++ s).data = p.data ++ s.data := rfl
  rw [hd, ← h, List.drop_left, mk_data]

theorem scramStep2_eq (sig : List Nat) (r2 : String) :
    scramStep2 sig r2 =
      if r2 = stringToBase64UTF8 ("v=" ++ arrayBufferToBase64 sig)
      then .ok "" else .error .serverVerificationFailed := by
  unfold scramStep2
  by_cases h : r2 = stringToBase64UTF8 ("v=" ++ arrayBufferToBase64 sig)
  · rw [if_pos h, if_neg (by simp [h])]
  · rw [if_neg h, if_pos (fun hc => h hc.symm)]

/-- C1: SCRAM step 2 accepts the server-final message exactly when the
base64 input equals `b64(utf8("v=" + b64(ServerSignature)))` for the
ServerSignature `HMAC(hash, ServerKey, utf8(authMessage))`; on a match
it yields the empty string, on a mismatch it fails with the server
verification error. -/

theorem scram_step2_accepts_iff (env : Platform) (hashName : String)
    (serverKey : List Nat) (authMessage r2 : String) :
    (scramStep2 (env.hmac hashName serverKey (stringToArrayBuffer authMessage)) r2 =
        .ok "" ↔
      r2 = stringToBase64UTF8 ("v=" ++
        arrayBufferToBase64 (env.hmac hashName serverKey (stringToArrayBuffer authMessage)))) ∧
    (r2 ≠ stringToBase64UTF8 ("v=" ++
        arrayBufferToBase64 (env.hmac hashName serverKey (stringToArrayBuffer authMessage))) →
      scramStep2 (env.hmac hashName serverKey (stringToArrayBuffer authMessage)) r2 =
        .error .serverVerificationFailed) := by
  generalize env.hmac hashName serverKey (stringToArrayBuffer authMessage) = sig
  rw [scramStep2_eq]
  constructor
  · by_cases h : r2 = stringToBase64UTF8 ("v=" ++ arrayBufferToBase64 sig)
    · simp [h]
    · simp [h]
  · intro hne
    rw [if_neg hne]

/-- Witness for C1: a matching server-final is accepted with `""`, a
mismatching one is rejected, at a concrete platform and inputs. -/

theorem scram_step2_accepts_iff_witness :
    scramStep2 (testEnv.hmac "SHA-1" [1, 2] (stringToArrayBuffer "am"))
        (stringToBase64UTF8 ("v=" ++ arrayBufferToBase64
          (testEnv.hmac "SHA-1" [1, 2] (stringToArrayBuffer "am")))) = .ok "" ∧
    scramStep2 (testEnv.hmac "SHA-1" [1, 2] (stringToArrayBuffer "am")) "" =
      .error .serverVerificationFailed :=
  ⟨(scram_step2_accepts_iff testEnv "SHA-1" [1, 2] "am" _).1.mpr rfl,
   (scram_step2_accepts_iff testEnv "SHA-1" [1, 2] "am" "").2 (by decide)⟩

/-- C4 (code bug): the SCRAM user escaping replaces only the FIRST
occurrence of `','` and then the FIRST occurrence of `'='` -- which can
be the `'='` just introduced by the comma replacement.  For user `","`
the code produces `"=3D2C"` where the claim requires `"=2C"`; for
`"a,b,c"` the second comma is left unescaped.  The emitted client-first
message has the claimed shape `b64(utf8("n,," + "n=" + escUser + ",r="
+ cNonce))` around the faulty escape. -/

theorem scram_escape_first_occurrence_only :
    scramEscapeUser (fun t => t) "," = "=3D2C" ∧
    scramEscapeUser (fun t => t) "a,b,c" = "a=3D2Cb,c" ∧
    (scramStep0 (fun t => t) "," "NONCE").1 =
      stringToBase64UTF8 ("n,," ++ "n==3D2C,r=NONCE") ∧
    scramEscapeUser (fun t => t) "," ≠ "=2C" :=
  ⟨rfl, rfl, rfl, by decide⟩

/-- C5 counterexample: a well-formed server-first message whose `r=`
value `"EVILNONCE"` does not begin with the client nonce
`"CLIENTNONCE"` is accepted by SCRAM step 1 (the claim requires
`MalformedServerResponse`); the server nonce is used verbatim. -/

theorem scram_nonce_prefix_counterexample :
    scramStep1 testEnv "SHA-1" 20 (some "pencil") "n=user,r=CLIENTNONCE"
        (stringToBase64UTF8 "r=EVILNONCE,s=QQ==,i=4096") =
      .ok (scramComputeFinal testEnv "SHA-1" 20 "pencil" "n=user,r=CLIENTNONCE"
        "r=EVILNONCE,s=QQ==,i=4096" "EVILNONCE" [65] (some 4096)) ∧
    strStartsWith "CLIENTNONCE" "EVILNONCE" = false :=
  ⟨rfl, rfl⟩

/-- C5 corrected: SCRAM step 1 checks only that the first remaining
attribute starts with `r=`; it captures the entire `r=` value as the
server nonce verbatim and performs NO comparison against the client
nonce, so a server-first message whose nonce does not begin with the
client nonce is accepted whenever the attributes are otherwise
well-formed.  (The client nonce appears below only in the hypothesis
recording the mismatch; `scramStep1` does not even receive it.) -/

theorem scram_step1_no_nonce_check (env : Platform) (hashName : String)
    (hashLength : Nat) (p cf r1 sf sn s64 iv cnonce : String) (salt : List Nat)
    (hdec : base64ToBinaryString r1 = some sf)
    (hsplit : jsSplitComma sf = ["r=" ++ sn, "s=" ++ s64, "i=" ++ iv])
    (hsalt : base64ToArrayBuffer s64 = some salt)
    (_hnonce : strStartsWith cnonce sn = false) :
    scramStep1 env hashName hashLength (some p) cf r1 =
      .ok (scramComputeFinal env hashName hashLength p cf sf sn salt (jsParseInt iv)) := by
  simp only [scramStep1, hdec, hsplit, List.headD,
    jsFirst2_of_len2 "r=" sn rfl, jsFirst2_of_len2 "s=" s64 rfl,
    jsFirst2_of_len2 "i=" iv rfl,
    jsDropFirst2_of_len2 "r=" sn rfl, jsDropFirst2_of_len2 "s=" s64 rfl,
    jsDropFirst2_of_len2 "i=" iv rfl, List.get?]
  simp [hsalt]

/-- Witness for the corrected C5 at concrete inputs. -/

theorem scram_step1_no_nonce_check_witness :
    scramStep1 testEnv "SHA-1" 20 (some "pw") "n=u,r=CN"
        (stringToBase64UTF8 "r=XX,s=QQ==,i=4096") =
      .ok (scramComputeFinal testEnv "SHA-1" 20 "pw" "n=u,r=CN"
        "r=XX,s=QQ==,i=4096" "XX" [65] (jsParseInt "4096")) :=
  scram_step1_no_nonce_check testEnv "SHA-1" 20 "pw" "n=u,r=CN"
    (stringToBase64UTF8 "r=XX,s=QQ==,i=4096") "r=XX,s=QQ==,i=4096" "XX" "QQ=="
    "4096" "CN" [65] rfl rfl rfl rfl

/-- C6 counterexample: a server-first message with `i=0` (zero is not a
positive integer) is accepted by SCRAM step 1 and the value `0` is
passed on to the PBKDF2 computation; the claim requires
`MalformedServerResponse` instead. -/

theorem scram_iter_count_counterexample :
    scramStep1 testEnv "SHA-1" 20 (some "pencil") "n=user,r=abc"
        (stringToBase64UTF8 "r=abcd,s=QQ==,i=0") =
      .ok (scramComputeFinal testEnv "SHA-1" 20 "pencil" "n=user,r=abc"
        "r=abcd,s=QQ==,i=0" "abcd" [65] (some 0)) ∧
    jsParseInt "0" = some 0 :=
  ⟨rfl, rfl⟩

/-- C6 corrected: SCRAM step 1 checks only that the third remaining
attribute starts with `i=`; an attribute without that prefix fails with
`MalformedServerResponse`, but the `i=` value itself is handed to
`parseInt` with no validation, and any value -- non-numeric (NaN), zero
or negative -- proceeds to the PBKDF2 computation. -/

theorem scram_step1_iter_prefix_only (env : Platform) (hashName : String)
    (hashLength : Nat) (p cf r1 sf sn s64 iv a2 : String) (salt : List Nat)
    (hdec : base64ToBinaryString r1 = some sf)
    (hsalt : base64ToArrayBuffer s64 = some salt) :
    (jsSplitComma sf = ["r=" ++ sn, "s=" ++ s64, a2] → jsFirst2 a2 ≠ "i=" →
      scramStep1 env hashName hashLength (some p) cf r1 =
        .error .malformedServerResponse) ∧
    (jsSplitComma sf = ["r=" ++ sn, "s=" ++ s64, "i=" ++ iv] →
      (∀ k, jsParseInt iv = some k → k ≤ 0) →
      scramStep1 env hashName hashLength (some p) cf r1 =
        .ok (scramComputeFinal env hashName hashLength p cf sf sn salt
          (jsParseInt iv))) := by
  constructor
  · intro hsplit hne
    simp only [scramStep1, hdec, hsplit, List.headD,
      jsFirst2_of_len2 "r=" sn rfl, jsFirst2_of_len2 "s=" s64 rfl,
      jsDropFirst2_of_len2 "r=" sn rfl, jsDropFirst2_of_len2 "s=" s64 rfl,
      List.get?]
    simp [hsalt, hne]
  · intro hsplit _hbad
    simp only [scramStep1, hdec, hsplit, List.headD,
      jsFirst2_of_len2 "r=" sn rfl, jsFirst2_of_len2 "s=" s64 rfl,
      jsFirst2_of_len2 "i=" iv rfl,
      jsDropFirst2_of_len2 "r=" sn rfl, jsDropFirst2_of_len2 "s=" s64 rfl,
      jsDropFirst2_of_len2 "i=" iv rfl, List.get?]
    simp [hsalt]

/-- Witness for the corrected C6: a missing `i=` prefix is malformed;
an `i=` value of zero proceeds. -/

theorem scram_step1_iter_prefix_only_witness :
    scramStep1 testEnv "SHA-1" 20 (some "pw") "n=u,r=CN"
        (stringToBase64UTF8 "r=YY,s=QQ==,x=9") = .error .malformedServerResponse ∧
    scramStep1 testEnv "SHA-1" 20 (some "pw") "n=u,r=CN"
        (stringToBase64UTF8 "r=YY,s=QQ==,i=0") =
      .ok (scramComputeFinal testEnv "SHA-1" 20 "pw" "n=u,r=CN"
        "r=YY,s=QQ==,i=0" "YY" [65] (jsParseInt "0")) :=
  ⟨(scram_step1_iter_prefix_only testEnv "SHA-1" 20 "pw" "n=u,r=CN"
      (stringToBase64UTF8 "r=YY,s=QQ==,x=9") "r=YY,s=QQ==,x=9" "YY"
      "QQ==" "0" "x=9" [65] rfl rfl).1 rfl (by decide),
   (scram_step1_iter_prefix_only testEnv "SHA-1" 20 "pw" "n=u,r=CN"
      (stringToBase64UTF8 "r=YY,s=QQ==,i=0") "r=YY,s=QQ==,i=0" "YY"
      "QQ==" "0" "x=9" [65] rfl rfl).2 rfl
     (by intro k hk; simp [jsParseInt] at hk; omega)⟩

theorem authStep_of_steps (env : Platform) (st : AuthState) (inst : MechInst)
    (gs : GenSt) (c : String) (h : st.authSteps = some (inst, gs)) :
    authStep env st c = (outcomeOf (genNext env inst gs c).1,
      { st with authSteps := some (inst, (genNext env inst gs c).2) }) := by
  unfold authStep
  rw [h]

theorem authStep_first (env : Platform) (st : AuthState) (inst : MechInst)
    (c : String) (hsteps : st.authSteps = none) (hmod : st.authModule = some inst)
    (hcur : st.currentAuthMethod ≠ "") :
    authStep env st c = (outcomeOf (genNext env inst (initGen inst c) "").1,
      { st with authSteps := some (inst, (genNext env inst (initGen inst c) "").2) }) := by
  unfold authStep
  rw [hsteps, hmod, decide_eq_true hcur]

theorem remYields_eq_zero (gs : GenSt) (h : remYields gs = 0) : gs = .sDone := by
  cases gs <;> simp [remYields] at h ⊢

theorem genNext_resolved_remYields (env : Platform) (inst : MechInst) (gs : GenSt)
    (a : String)
    (h : isResolvedOutcome (outcomeOf (genNext env inst gs a).1) = true) :
    remYields (genNext env inst gs a).2 + 1 = remYields gs := by
  revert h
  cases gs <;> simp only [genNext] <;> (repeat' split) <;>
    simp_all [outcomeOf, isResolvedOutcome, remYields]

theorem runSteps_resolved (env : Platform) :
    ∀ (chals : List String) (st : AuthState) (inst : MechInst) (gs : GenSt),
    st.authSteps = some (inst, gs) →
    (∀ o ∈ (runSteps env st chals).1, isResolvedOutcome o = true) →
    ∃ gs2, (runSteps env st chals).2.authSteps = some (inst, gs2) ∧
      remYields gs2 + chals.length = remYields gs := by
  intro chals
  induction chals with
  | nil =>
    intro st inst gs hst _
    exact ⟨gs, by simpa [runSteps] using hst, by simp⟩
  | cons c cs ih =>
    intro st inst gs hst hres
    have hstep := authStep_of_steps env st inst gs c hst
    have hr1 : isResolvedOutcome (outcomeOf (genNext env inst gs c).1) = true := by
      have hm : (authStep env st c).1 ∈ (runSteps env st (c :: cs)).1 := by
        simp [runSteps]
      have h1 := hres _ hm
      rw [hstep] at h1
      exact h1
    have hrem1 := genNext_resolved_remYields env inst gs c hr1
    have hst1 : (authStep env st c).2.authSteps =
        some (inst, (genNext env inst gs c).2) := by
      rw [hstep]
    have hres2 : ∀ o ∈ (runSteps env (authStep env st c).2 cs).1,
        isResolvedOutcome o = true := by
      intro o ho
      refine hres o ?_
      simp [runSteps]
      right
      exact ho
    obtain ⟨gs2, hgs2, hrem2⟩ := ih (authStep env st c).2 inst _ hst1 hres2
    refine ⟨gs2, ?_, ?_⟩
    · have hsame : (runSteps env st (c :: cs)).2 =
          (runSteps env (authStep env st c).2 cs).2 := by
        simp [runSteps]
      rw [hsame]
      exact hgs2
    · simp only [List.length_cons]
      omega

theorem too_many_steps_aux (env : Platform) (st : AuthState) (inst : MechInst)
    (chals : List String) (c : String) (n : Nat)
    (hmod : st.authModule = some inst) (hcur : st.currentAuthMethod ≠ "")
    (hsteps : st.authSteps = none) (hlen : chals.length = n)
    (hinit : ∀ c0, remYields (initGen inst c0) = n)
    (hres : ∀ o ∈ (runSteps env st chals).1, isResolvedOutcome o = true) :
    (authStep env (runSteps env st chals).2 c).1 = .rejected .tooManySteps := by
  cases chals with
  | nil =>
    exfalso
    have h0 := hinit c
    rw [show n = 0 from by simpa using hlen.symm] at h0
    have hdone := remYields_eq_zero _ h0
    cases hk : inst.kind <;> rw [show initGen inst c = _ from rfl] at hdone <;>
      simp [initGen, hk] at hdone
  | cons c1 cs =>
    have hstep1 := authStep_first env st inst c1 hsteps hmod hcur
    have hr1 : isResolvedOutcome
        (outcomeOf (genNext env inst (initGen inst c1) "").1) = true := by
      have hm : (authStep env st c1).1 ∈ (runSteps env st (c1 :: cs)).1 := by
        simp [runSteps]
      have h1 := hres _ hm
      rw [hstep1] at h1
      exact h1
    have hrem1 := genNext_resolved_remYields env inst (initGen inst c1) "" hr1
    rw [hinit c1] at hrem1
    have hst1 : (authStep env st c1).2.authSteps =
        some (inst, (genNext env inst (initGen inst c1) "").2) := by
      rw [hstep1]
    have hres2 : ∀ o ∈ (runSteps env (authStep env st c1).2 cs).1,
        isResolvedOutcome o = true := by
      intro o ho
      refine hres o ?_
      simp [runSteps]
      right
      exact ho
    obtain ⟨gs2, hgs2, hrem2⟩ := runSteps_resolved env cs (authStep env st c1).2
      inst _ hst1 hres2
    have hlen2 : cs.length + 1 = n := by simpa using hlen
    have hz : remYields gs2 = 0 := by omega
    rw [remYields_eq_zero _ hz] at hgs2
    have hsame : (runSteps env st (c1 :: cs)).2 =
        (runSteps env (authStep env st c1).2 cs).2 := by
      simp [runSteps]
    rw [hsame]
    rw [authStep_of_steps env _ inst .sDone c hgs2]
    rfl

theorem tryNextLoopRev_some_inv (env : Platform) (reg : List (String × MechDef))
    (opts : Credentials) :
    ∀ (l : List String) (nm : String) (cf : Bool) (inst : MechInst)
      (rest : List String),
    tryNextLoopRev env reg opts l = (.ok (some (nm, cf, inst)), rest) →
    ∃ md, lookupModule reg nm = some md ∧ cf = md.isClientFirst ∧
      inst = instantiate env md.kind opts := by
  intro l
  induction l with
  | nil =>
    intro nm cf inst rest h
    simp [tryNextLoopRev] at h
  | cons x xs ih =>
    intro nm cf inst rest h
    simp only [tryNextLoopRev] at h
    rcases hlk : lookupModule reg x with _ | md
    · rw [hlk] at h
      simp at h
    · rw [hlk] at h
      by_cases hv : kindIsValid md.kind opts
      · simp only [hv, if_true] at h
        simp at h
        obtain ⟨⟨hnm, hcf, hinst⟩, _⟩ := h
        exact ⟨md, hnm ▸ hlk, hcf.symm, hinst.symm⟩
      · simp only [hv, if_false] at h
        exact ih nm cf inst rest h

theorem tryNextAuth_some_inv (env : Platform) (reg : List (String × MechDef))
    (st : AuthState) (nm : String) (cf : Bool) (st2 : AuthState)
    (h : tryNextAuth env reg st = .ok (some (nm, cf), st2)) :
    ∃ md, lookupModule reg nm = some md ∧ cf = md.isClientFirst ∧
      st2.authModule = some (instantiate env md.kind st.options) ∧
      st2.currentAuthMethod = nm ∧ st2.authSteps = st.authSteps := by
  unfold tryNextAuth at h
  rcases hloop : tryNextLoopRev env reg st.options st.authMethods.reverse with ⟨res, rest⟩
  rw [hloop] at h
  rcases res with e | o
  · simp at h
  · rcases o with _ | ⟨nm2, cf2, inst2⟩
    · simp at h
    · simp at h
      obtain ⟨⟨hnm, hcf⟩, hst2⟩ := h
      obtain ⟨md, hlk, hcf2, hinst⟩ := tryNextLoopRev_some_inv env reg st.options
        _ nm2 cf2 inst2 rest hloop
      subst hnm
      subst hcf
      refine ⟨md, hlk, hcf2, ?_, ?_, ?_⟩ <;> rw [← hst2] <;> simp [hinst]

/-- C3: after a successful `tryNextAuth` selecting a mechanism whose
claimed maximum step count is N (PLAIN 1, LOGIN 2, ANONYMOUS 1,
XOAUTH2 2, CRAM-MD5 1, SCRAM 3), if the first N `authStep` calls each
resolve with a client response then the (N+1)-th call fails with the
TooManySteps rejection. -/

theorem auth_step_too_many_steps (env : Platform) (st0 st : AuthState)
    (name : String) (cf : Bool) (n : Nat) (chals : List String) (c : String)
    (hmax : specMaxSteps name = some n)
    (hsteps0 : st0.authSteps = none)
    (htry : tryNextAuth env saslModules st0 = .ok (some (name, cf), st))
    (hlen : chals.length = n)
    (hres : ∀ o ∈ (runSteps env st chals).1, isResolvedOutcome o = true) :
    (authStep env (runSteps env st chals).2 c).1 = .rejected .tooManySteps := by
  obtain ⟨md, hlk, hcf, hmod, hcur, hsteps⟩ :=
    tryNextAuth_some_inv env saslModules st0 name cf st htry
  rw [hsteps0] at hsteps
  have hname : (name = "PLAIN" ∧ n = 1) ∨ (name = "LOGIN" ∧ n = 2) ∨
      (name = "ANONYMOUS" ∧ n = 1) ∨ (name = "XOAUTH2" ∧ n = 2) ∨
      (name = "CRAM-MD5" ∧ n = 1) ∨ (name = "SCRAM-SHA-1" ∧ n = 3) ∨
      (name = "SCRAM-SHA-256" ∧ n = 3) := by
    unfold specMaxSteps at hmax
    repeat' split at hmax
    all_goals simp_all
  rcases hname with ⟨h1, h2⟩ | ⟨h1, h2⟩ | ⟨h1, h2⟩ | ⟨h1, h2⟩ | ⟨h1, h2⟩ |
    ⟨h1, h2⟩ | ⟨h1, h2⟩ <;> subst h1 <;> subst h2
  · have hmd : md = ⟨MechKind.plain, true⟩ :=
      (Option.some.inj ((rfl : lookupModule saslModules "PLAIN" =
        some ⟨MechKind.plain, true⟩).symm.trans hlk)).symm
    subst hmd
    exact too_many_steps_aux env st _ chals c _ hmod (by rw [hcur]; decide)
      hsteps hlen (fun c0 => rfl) hres
  · have hmd : md = ⟨MechKind.login, false⟩ :=
      (Option.some.inj ((rfl : lookupModule saslModules "LOGIN" =
        some ⟨MechKind.login, false⟩).symm.trans hlk)).symm
    subst hmd
    exact too_many_steps_aux env st _ chals c _ hmod (by rw [hcur]; decide)
      hsteps hlen (fun c0 => rfl) hres
  · have hmd : md = ⟨MechKind.anonymous, true⟩ :=
      (Option.some.inj ((rfl : lookupModule saslModules "ANONYMOUS" =
        some ⟨MechKind.anonymous, true⟩).symm.trans hlk)).symm
    subst hmd
    exact too_many_steps_aux env st _ chals c _ hmod (by rw [hcur]; decide)
      hsteps hlen (fun c0 => rfl) hres
  · have hmd : md = ⟨MechKind.xoauth2, true⟩ :=
      (Option.some.inj ((rfl : lookupModule saslModules "XOAUTH2" =
        some ⟨MechKind.xoauth2, true⟩).symm.trans hlk)).symm
    subst hmd
    exact too_many_steps_aux env st _ chals c _ hmod (by rw [hcur]; decide)
      hsteps hlen (fun c0 => rfl) hres
  · have hmd : md = ⟨MechKind.cramMD5, false⟩ :=
      (Option.some.inj ((rfl : lookupModule saslModules "CRAM-MD5" =
        some ⟨MechKind.cramMD5, false⟩).symm.trans hlk)).symm
    subst hmd
    exact too_many_steps_aux env st _ chals c _ hmod (by rw [hcur]; decide)
      hsteps hlen (fun c0 => rfl) hres
  · have hmd : md = ⟨MechKind.scram "SHA-1" 20, true⟩ :=
      (Option.some.inj ((rfl : lookupModule saslModules "SCRAM-SHA-1" =
        some ⟨MechKind.scram "SHA-1" 20, true⟩).symm.trans hlk)).symm
    subst hmd
    exact too_many_steps_aux env st _ chals c _ hmod (by rw [hcur]; decide)
      hsteps hlen (fun c0 => rfl) hres
  · have hmd : md = ⟨MechKind.scram "SHA-256" 32, true⟩ :=
      (Option.some.inj ((rfl : lookupModule saslModules "SCRAM-SHA-256" =
        some ⟨MechKind.scram "SHA-256" 32, true⟩).symm.trans hlk)).symm
    subst hmd
    exact too_many_steps_aux env st _ chals c _ hmod (by rw [hcur]; decide)
      hsteps hlen (fun c0 => rfl) hres

theorem drainNames_of_stack (env : Platform) (reg : List (String × MechDef)) :
    ∀ (l : List String) (fuel : Nat) (st : AuthState),
    (∀ nm ∈ l, (lookupModule reg nm).isSome = true) →
    l.length ≤ fuel →
    st.authMethods = l.reverse →
    drainNames env reg fuel st = l.filter (mechNameIsValid reg st.options) := by
  intro l
  induction l with
  | nil =>
    intro fuel st _ _ hst
    cases fuel with
    | zero => simp [drainNames]
    | succ f => simp [drainNames, tryNextAuth, hst, tryNextLoopRev]
  | cons h t ih =>
    intro fuel st hall hfuel hst
    obtain ⟨md, hmd⟩ := Option.isSome_iff_exists.mp (hall h (List.mem_cons_self h t))
    have hrev : st.authMethods.reverse = h :: t := by
      rw [hst, List.reverse_reverse]
    by_cases hv : kindIsValid md.kind st.options
    · have hloop : tryNextLoopRev env reg st.options (h :: t) =
          (.ok (some (h, md.isClientFirst, instantiate env md.kind st.options)), t) := by
        simp [tryNextLoopRev, hmd, hv]
      have htry : tryNextAuth env reg st = .ok (some (h, md.isClientFirst),
          { st with authMethods := t.reverse,
                    authModule := some (instantiate env md.kind st.options),
                    currentAuthMethod := h }) := by
        unfold tryNextAuth
        rw [hrev, hloop]
      cases fuel with
      | zero => simp at hfuel
      | succ f =>
        simp only [drainNames]
        rw [htry]
        have hvalid : mechNameIsValid reg st.options h = true := by
          simp [mechNameIsValid, hmd, hv]
        rw [List.filter_cons_of_pos hvalid]
        have hrest := ih f ({ st with authMethods := t.reverse, authModule := some (instantiate env md.kind st.options), currentAuthMethod := h }) (fun nm hnm => hall nm (List.mem_cons_of_mem h hnm)) (by simp at hfuel; omega) rfl
        exact congrArg (h :: ·) hrest
    · have hloop : tryNextLoopRev env reg st.options (h :: t) =
          tryNextLoopRev env reg st.options t := by
        simp [tryNextLoopRev, hmd, hv]
      have hta : tryNextAuth env reg st =
          tryNextAuth env reg { st with authMethods := t.reverse } := by
        unfold tryNextAuth
        rw [hrev, hloop,
          show ({ st with authMethods := t.reverse } : AuthState).authMethods.reverse
            = t from by simp]
        rfl
      have hdrain : drainNames env reg fuel st =
          drainNames env reg fuel { st with authMethods := t.reverse } := by
        cases fuel with
        | zero => rfl
        | succ f =>
          simp only [drainNames]
          rw [hta]
      rw [hdrain]
      have hrest := ih fuel ({ st with authMethods := t.reverse }) (fun nm hnm => hall nm (List.mem_cons_of_mem h hnm)) (by simp at hfuel; omega) rfl
      rw [hrest]
      have hinvalid : mechNameIsValid reg st.options h = false := by
        simp [mechNameIsValid, hmd]
        simpa using hv
      rw [List.filter_cons_of_neg (by simp [hinvalid])]

theorem mkAuthenticator_ok (svc host : String) (supported : List String)
    (opts : Credentials) (st : AuthState)
    (h : mkAuthenticator svc host supported opts = .ok st) :
    st.authSteps = none ∧ st.currentAuthMethod = "" ∧ st.authModule = none ∧
      st.options = opts ∧
      ∃ methods, effectiveAuthMethods opts = .ok methods ∧
        st.authMethods = (methods.filter
          (fun m => (supported.map jsToUpperCase).contains m)).reverse := by
  unfold mkAuthenticator at h
  split at h
  · exact absurd h (by simp)
  · split at h
    · exact absurd h (by simp)
    · split at h
      · exact absurd h (by simp)
      · rcases hm : effectiveAuthMethods opts with e | methods
        · rw [hm] at h
          simp at h
        · rw [hm] at h
          injection h with h3
          subst h3
          exact ⟨rfl, rfl, rfl, rfl, methods, rfl, rfl⟩

theorem tryNextAuth_none_state (env : Platform) (reg : List (String × MechDef))
    (st st2 : AuthState) (h : tryNextAuth env reg st = .ok (none, st2)) :
    st2 = clearedOf st := by
  unfold tryNextAuth at h
  rcases hloop : tryNextLoopRev env reg st.options st.authMethods.reverse with ⟨res, rest⟩
  rw [hloop] at h
  rcases res with e | o
  · simp at h
  · rcases o with _ | ⟨nm2, cf2, inst2⟩
    · simp at h
      exact h.symm
    · simp at h

/-- C10: calling `authStep` when no mechanism is current -- on a freshly
constructed Authenticator, or after `tryNextAuth` has returned null and
reset the state -- throws a TypeError synchronously (the step-iterator
field is null and `.next` is dereferenced unconditionally) instead of
returning a rejected future. -/

theorem auth_step_without_mechanism_throws (env : Platform) (svc host : String)
    (supported : List String) (opts : Credentials) (st : AuthState) (c : String)
    (hmk : mkAuthenticator svc host supported opts = .ok st) :
    (authStep env st c).1 = .thrown .typeError ∧
    (∀ reg st1 st2, tryNextAuth env reg st1 = .ok (none, st2) →
      (authStep env st2 c).1 = .thrown .typeError) := by
  obtain ⟨hsteps, hcur, _⟩ := mkAuthenticator_ok svc host supported opts st hmk
  constructor
  · unfold authStep
    rw [hsteps, hcur]
    simp
  · intro reg st1 st2 h2
    rw [tryNextAuth_none_state env reg st1 st2 h2]
    unfold authStep clearedOf
    simp

/-- C2: the successive mechanisms produced by `tryNextAuth` are exactly
the effective priority list restricted to the uppercase-normalized
server-supported set and further restricted to the mechanisms whose
`isValid(credentials)` holds, in that order; in particular no returned
mechanism has `isValid` false. -/

theorem tryNextAuth_order (env : Platform) (reg : List (String × MechDef))
    (svc host : String) (supported : List String) (opts : Credentials)
    (methods : List String) (st : AuthState) (fuel : Nat)
    (hmeth : effectiveAuthMethods opts = .ok methods)
    (hmk : mkAuthenticator svc host supported opts = .ok st)
    (hreg : ∀ nm ∈ st.authMethods, (lookupModule reg nm).isSome = true)
    (hfuel : st.authMethods.length ≤ fuel) :
    drainNames env reg fuel st =
      (methods.filter (fun m => (supported.map jsToUpperCase).contains m)).filter
        (mechNameIsValid reg opts) ∧
    ∀ nm ∈ drainNames env reg fuel st, mechNameIsValid reg opts nm = true := by
  obtain ⟨_, _, _, hopts, methods2, hmeth2, hstack⟩ :=
    mkAuthenticator_ok svc host supported opts st hmk
  rw [hmeth] at hmeth2
  injection hmeth2 with hmeth3
  subst hmeth3
  have hmain := drainNames_of_stack env reg
    (methods.filter (fun m => (supported.map jsToUpperCase).contains m)) fuel st
    (by intro nm hnm; exact hreg nm (by rw [hstack]; exact List.mem_reverse.mpr hnm))
    (by rw [hstack] at hfuel; simpa using hfuel)
    hstack
  rw [hopts] at hmain
  refine ⟨hmain, ?_⟩
  intro nm hnm
  rw [hmain] at hnm
  exact List.of_mem_filter hnm

/-- C9 counterexample: a candidate name with no registered factory is
not "skipped without error": `new (saslModules[name])(...)` dereferences
`undefined` and `tryNextAuth` throws a TypeError.  The state shown is
exactly what the constructor builds for server list `["FOO"]` and
desired methods `["FOO"]`. -/

theorem tryNextAuth_unregistered_throws :
    mkAuthenticator "imap" "localhost.localdomain" ["FOO"] c9opts = .ok c9state ∧
    tryNextAuth testEnv saslModules c9state = .error .typeError := by
  constructor
  · decide
  · decide

/-- C9 corrected: `tryNextAuth` pops candidates and unconditionally
constructs the registry entry -- a candidate whose name has no factory
makes the call throw a TypeError instead of being skipped.  When the
candidate stack drains it clears the current mechanism, step iterator
and current-method name and returns null, and every subsequent call
returns null again on the same cleared state. -/

theorem tryNextAuth_factory_and_drain (env : Platform)
    (reg : List (String × MechDef)) (st : AuthState) (nm : String)
    (l : List String) :
    (st.authMethods.reverse = nm :: l → lookupModule reg nm = none →
      tryNextAuth env reg st = .error .typeError) ∧
    (st.authMethods = [] →
      tryNextAuth env reg st = .ok (none, clearedOf st) ∧
      tryNextAuth env reg (clearedOf st) = .ok (none, clearedOf (clearedOf st)) ∧
      clearedOf (clearedOf st) = clearedOf st ∧
      (clearedOf st).authModule = none ∧ (clearedOf st).authSteps = none ∧
      (clearedOf st).currentAuthMethod = "") := by
  constructor
  · intro hrev hlk
    have heq : tryNextLoopRev env reg st.options (nm :: l) = (.error .typeError, l) := by
      simp [tryNextLoopRev, hlk]
    unfold tryNextAuth
    rw [hrev, heq]
  · intro hempty
    refine ⟨?_, ?_, rfl, rfl, rfl, rfl⟩
    · unfold tryNextAuth
      rw [hempty]
      rfl
    · unfold tryNextAuth
      rfl

/-- Witness for C2 with server list `["PLAIN", "LOGIN"]` and full
credentials. -/

theorem tryNextAuth_order_witness :
    drainNames testEnv saslModules 2 wSt =
      (desiredAuthMethods.filter
        (fun m => ((["PLAIN", "LOGIN"].map jsToUpperCase)).contains m)).filter
        (mechNameIsValid saslModules wOpts) :=
  (tryNextAuth_order testEnv saslModules "imap" "localhost.localdomain"
    ["PLAIN", "LOGIN"] wOpts desiredAuthMethods wSt 2 rfl (by decide) (by decide)
    (by decide)).1

/-- Witness for C3: PLAIN resolves its single step and the second
`authStep` call is rejected with TooManySteps. -/

theorem auth_step_too_many_steps_witness :
    (authStep testEnv (runSteps testEnv c3st ["AAAA"]).2 "").1 =
      .rejected .tooManySteps :=
  auth_step_too_many_steps testEnv c3st0 c3st "PLAIN" true 1 ["AAAA"] ""
    rfl rfl (by decide) rfl (by decide)

/-- Witness for C10 at a concrete freshly built state. -/

theorem auth_step_without_mechanism_throws_witness :
    (authStep testEnv wSt "").1 = .thrown .typeError :=
  (auth_step_without_mechanism_throws testEnv "imap" "localhost.localdomain"
    ["PLAIN", "LOGIN"] wOpts wSt "" (by decide)).1

/-- Witness for the corrected C9: the missing-factory throw and the
drained-stack null at concrete states. -/

theorem tryNextAuth_factory_and_drain_witness :
    tryNextAuth testEnv saslModules c9state = .error .typeError ∧
    tryNextAuth testEnv saslModules (clearedOf c9state) =
      .ok (none, clearedOf (clearedOf c9state)) :=
  ⟨(tryNextAuth_factory_and_drain testEnv saslModules c9state "FOO" []).1 rfl rfl,
   ((tryNextAuth_factory_and_drain testEnv saslModules (clearedOf c9state) "FOO" []).2
     rfl).1⟩
